import Mathlib

/-!
Verification of the DAG-based task execution engine (`src/wf_types.py`,
`src/client/workflow.py`, `src/server/orchestrator.py`).

The Python code is shallowly embedded: a `Workflow` is the list of `TaskSpec`
values of `wf._tasks` (a dict keyed by freshly generated UUIDs, so ids are
unique and insertion order is preserved); dicts whose iteration order matters
become association lists; Python `set`s whose only observable operation is
membership become `Finset String`; the orchestrator's mutable run state becomes
an explicit `RunSt` record threaded through an executable, fuel-indexed loop.
-/

namespace WfEngine

/-- The constraint variants of `src/wf_types.py` (`StaticConstraint`,
`NoOutgoingEdgesConstraint`, `NoIncomingEdgesConstraint`), instances of the
bare base class `Constraint`. -/
inductive PyConstraint
  | staticC
  | noOutgoingEdges
  | noIncomingEdges
deriving DecidableEq, Repr

/-- `TaskSpec` from `src/wf_types.py`.  `dynamic_spawns` is `None` for a static
task and a dict `label ↦ task_id` (kept here as an association list in
insertion order) for a dynamic activator. -/
structure TaskSpec where
  task_id : String
  func_ref : String
  deps : List String
  dynamic_spawns : Option (List (String × String))
  constraints : List PyConstraint
deriving DecidableEq, Repr

/-- A workflow, i.e. `wf._tasks.values()` in insertion order. -/
abbrev Workflow := List TaskSpec

/-- The resolver's `indegree` defaultdict: `for t in tasks: for d in t.deps:
indegree[t.task_id] += 1`, read with default 0 (`DependencyResolver.__init__`
in `src/server/orchestrator.py`). -/
def indegree0 (wf : Workflow) (tid : String) : Nat :=
  wf.foldl (fun n t => if t.task_id = tid then n + t.deps.length else n) 0

/-- The resolver's successor adjacency `graph` defaultdict: `for t in tasks:
for d in t.deps: graph[d].append(t.task_id)`, read with default `[]`. -/
def successors (wf : Workflow) (tid : String) : List String :=
  wf.foldl (fun acc t => acc ++ List.replicate (t.deps.count tid) t.task_id) []

/-- Seed of the dynamic-only computation: `dynamic_only.update(
t.dynamic_spawns.values())` for every task with a truthy `dynamic_spawns`
(an empty dict is falsy, but updating with its values is a no-op anyway). -/
def seedDynamic (wf : Workflow) : Finset String :=
  wf.foldl (fun acc t =>
    match t.dynamic_spawns with
    | none => acc
    | some m => acc ∪ (m.map (·.2)).toFinset) ∅

/-- One task's turn inside a pass of the transitive loop of
`DependencyResolver._compute_dynamic_only_tasks`: skip if already in the set
or if `deps` is empty; otherwise add the task when all its deps are already
in the (current, in-pass) set. -/
def stepT (s : Finset String) (t : TaskSpec) : Finset String :=
  if t.task_id ∈ s then s
  else if t.deps = [] then s
  else if t.deps.all (fun d => decide (d ∈ s)) then insert t.task_id s
  else s

/-- One full `for t in self.task_index.values()` pass of the transitive loop. -/
def passOnce (wf : Workflow) (s : Finset String) : Finset String :=
  wf.foldl stepT s

/-- The `while changed` loop, fuel-indexed: keep applying `passOnce` until a
pass changes nothing.  `changed` is `True` exactly when the pass grew the set,
so the Python loop stops exactly when `passOnce` is the identity. -/
def saturate (wf : Workflow) : Nat → Finset String → Finset String
  | 0, s => s
  | fuel + 1, s =>
      let s2 := passOnce wf s
      if s2 = s then s else saturate wf fuel s2

/-- `DependencyResolver._compute_dynamic_only_tasks`.  `wf.length` passes are
enough fuel: every changing pass inserts at least one task id not yet in the
set, and there are at most `wf.length` distinct task ids. -/
def dynamicOnlyTasks (wf : Workflow) : Finset String :=
  saturate wf wf.length (seedDynamic wf)

/-- `DependencyResolver.initial_ready`: ids of tasks with indegree 0 that are
not dynamic-only, in task-index order. -/
def initial_ready (wf : Workflow) : List String :=
  (wf.filter (fun t =>
    indegree0 wf t.task_id = 0 ∧ t.task_id ∉ dynamicOnlyTasks wf)).map (·.task_id)

/-- Ids occurring in the workflow, as a finset. -/
def idsOf (wf : Workflow) : Finset String := (wf.map (·.task_id)).toFinset


/-! ## The orchestrator run loop (`src/server/orchestrator.py`) -/

/-- An indegree entry of the orchestrator's working copy: a Python int, or the
`float('inf')` sentinel installed for dynamic-only tasks. -/
inductive Idg
  | fin (n : Int)
  | inf
deriving DecidableEq, Repr

/-- What the registry function bound to a `func_ref` does when the Executor
invokes it with the fresh `ExecutionContext` (`src/client/workflow.py`):
the static wrapper ignores the context and registers nothing (`noop`), a body
may raise (`raises`), and the dynamic wrapper calls the user function, turns
its result into a list of branch-function names `labels`, enforces the
exactly-one discipline when `branching` is true, and passes `labels` to
`ctx.register_branches`. -/
inductive Behavior
  | noop
  | raises
  | dynamic (labels : List String) (branching : Bool)
deriving DecidableEq, Repr

/-- The Python exceptions the engine can raise, by kind. -/
inductive PyErr
  | attrError
  | notDynamicTask (taskId : String)
  | unknownBranch (taskId : String) (label : String)
  | branchCardinality (funcRef : String) (count : Nat)
  | userError
  | keyError
  | taskFailed (funcRef : String) (cause : PyErr)
  | deadlock (funcRefs : List String)
  | fuelOut
deriving DecidableEq, Repr

/-- The label loop of `ExecutionContext.register_branches`: each label must be
a key of `dynamic_spawns` (else `RuntimeError`, modelled as `unknownBranch`);
valid labels are appended to `_registered_branches` before the next check, so
the list mutated so far survives an exception. -/
def regLoop (taskId : String) (spawns : List (String × String)) :
    List String → List String → List String × Option PyErr
  | acc, [] => (acc, none)
  | acc, label :: rest =>
      if (spawns.lookup label).isSome then
        regLoop taskId spawns (acc ++ [label]) rest
      else (acc, some (.unknownBranch taskId label))

/-- `ExecutionContext.register_branches`: fails on a non-activator task, then
runs the label loop.  Returns the final `_registered_branches` list paired
with the exception raised, if any. -/
def register_branches (t : TaskSpec) (acc labels : List String) :
    List String × Option PyErr :=
  match t.dynamic_spawns with
  | none => (acc, some (.notDynamicTask t.task_id))
  | some spawns => regLoop t.task_id spawns acc labels

/-- `Executor.execute` composed with the wrapper the builder registered for
the task (`Workflow.task` / `Workflow._create_dynamic_task`): the exactly-one
cardinality check runs right after the user function returns and before
`register_branches`.  On success, returns the context's registered labels. -/
def executeBody (reg : String → Behavior) (t : TaskSpec) :
    Except PyErr (List String) :=
  match reg t.func_ref with
  | .noop => .ok []
  | .raises => .error .userError
  | .dynamic labels branching =>
      if branching ∧ labels.length ≠ 1 then
        .error (.branchCardinality t.func_ref labels.length)
      else
        match register_branches t [] labels with
        | (acc, none) => .ok acc
        | (_, some e) => .error e

/-- The orchestrator's run-scoped mutable state: `self.indegree` (working
copy, total with default 0 — every key the Python code reads exists in the
dict), `self.done`, `self.blocked_branches`, and the scheduler's FIFO queue. -/
structure RunSt where
  indegree : String → Idg
  done : List (String × String)
  blocked : String → Option Int
  queue : List String

/-- Python dict update `m[k] = v`: replace in place if the key exists,
otherwise append. -/
def dupdate (m : List (String × String)) (k v : String) :
    List (String × String) :=
  if m.any (fun p => p.1 = k) then
    m.map (fun p => if p.1 = k then (k, v) else p)
  else m ++ [(k, v)]

/-- One label of `Orchestrator._register_branches_for_execution`: look up the
branch's task id, skip if already done, restore the saved indegree if the id
is in `blocked_branches`, and enqueue when the restored value is 0.  (Every
registered label is a key of `dynamic_spawns` — `register_branches` checked —
so the `none` lookup branch is unreachable.) -/
def activateBranch (spawns : List (String × String)) (st : RunSt)
    (label : String) : RunSt :=
  match spawns.lookup label with
  | none => st
  | some task_id =>
      if st.done.any (fun p => p.1 = task_id) then st
      else
        match st.blocked task_id with
        | none => st
        | some n =>
            let st1 : RunSt :=
              { st with indegree := fun x => if x = task_id then .fin n else st.indegree x }
            if n = 0 then { st1 with queue := st1.queue ++ [task_id] } else st1

/-- `Orchestrator._register_branches_for_execution`, over the labels the
context accumulated. -/
def registerForExecution (st : RunSt) (spawns : List (String × String))
    (registered : List String) : RunSt :=
  registered.foldl (activateBranch spawns) st

/-- One successor of the completed task (`Orchestrator.run`, final loop):
skip if sentinel-blocked, else decrement and enqueue on reaching 0. -/
def decSuccessor (st : RunSt) (succ : String) : RunSt :=
  match st.indegree succ with
  | .inf => st
  | .fin n =>
      let st1 : RunSt :=
        { st with indegree := fun x => if x = succ then .fin (n - 1) else st.indegree x }
      if n - 1 = 0 then { st1 with queue := st1.queue ++ [succ] } else st1

/-- The successor-decrement loop of `Orchestrator.run`. -/
def applySuccessors (wf : Workflow) (st : RunSt) (tid : String) : RunSt :=
  (successors wf tid).foldl decSuccessor st

/-- The two list comprehensions of the queue-empty check in
`Orchestrator.run`: tasks not in `done` and not dynamic-only. -/
def pendingNonDynamic (wf : Workflow) (st : RunSt) : List TaskSpec :=
  wf.filter (fun t =>
    ¬ st.done.any (fun p => p.1 = t.task_id) ∧ t.task_id ∉ dynamicOnlyTasks wf)

/-- `ConstraintValidator.validate_before_execution`.  The loop body compares
each constraint against `Constraint.STATIC`, but the `Constraint` base class
in `src/wf_types.py` declares no attribute `STATIC`, so the first iteration
raises `AttributeError` and `_validate_static` is unreachable: no constraints
means no iterations and success; any constraint list is an `AttributeError`. -/
def validate_before_execution (t : TaskSpec) : Option PyErr :=
  match t.constraints with
  | [] => none
  | _ :: _ => some .attrError

/-- Outcome of a run: Python's normal return (the orchestrator keeps its
state; `run` returns `self.done`) or a raised exception (the orchestrator
object still holds the state reached so far, which is observable). -/
inductive RunResult
  | ok (st : RunSt)
  | err (e : PyErr) (st : RunSt)

def RunResult.errOf : RunResult → Option PyErr
  | .ok _ => none
  | .err e _ => some e

def RunResult.state : RunResult → RunSt
  | .ok st => st
  | .err _ st => st

/-- The `while True` loop of `Orchestrator.run`, fuel-indexed (the fuel only
ever matters after at least one pop, and running out is modelled by the
distinguished `fuelOut` error, which is never a normal return). -/
def runLoop (wf : Workflow) (reg : String → Behavior) :
    Nat → RunSt → RunResult
  | 0, st => .err .fuelOut st
  | fuel + 1, st =>
      match st.queue with
      | [] =>
          if pendingNonDynamic wf st = [] then .ok st
          else .err (.deadlock ((pendingNonDynamic wf st).map (·.func_ref))) st
      | tid :: rest =>
          let st1 : RunSt := { st with queue := rest }
          match wf.find? (fun t => t.task_id = tid) with
          | none => .err .keyError st1
          | some t =>
              match validate_before_execution t with
              | some e => .err e st1
              | none =>
                  match executeBody reg t with
                  | .error e =>
                      .err (.taskFailed t.func_ref e)
                        { st1 with done := dupdate st1.done tid "FAILED" }
                  | .ok registered =>
                      let st2 : RunSt :=
                        { st1 with done := dupdate st1.done tid "SUCCESS" }
                      let st3 : RunSt :=
                        match t.dynamic_spawns with
                        | none => st2
                        | some spawns => registerForExecution st2 spawns registered
                      runLoop wf reg fuel (applySuccessors wf st3 tid)

/-- The initialization of `Orchestrator.run`: working indegree copy, empty
`done`, sentinel-blocked dynamic-only tasks with their true indegree saved in
`blocked_branches`, and the initial ready frontier enqueued. -/
def initState (wf : Workflow) : RunSt :=
  { indegree := fun tid =>
      if tid ∈ dynamicOnlyTasks wf then .inf else .fin (indegree0 wf tid)
    done := []
    blocked := fun tid =>
      if tid ∈ dynamicOnlyTasks wf then some ((indegree0 wf tid : Nat) : Int) else none
    queue := initial_ready wf }

/-- `Orchestrator.run` on a frozen workflow, with the registry abstracted as
a map from `func_ref` to behavior. -/
def run (wf : Workflow) (reg : String → Behavior) (fuel : Nat) : RunResult :=
  runLoop wf reg fuel (initState wf)

/-! ## Concrete workflows used to settle the claims -/

/-- C1: one task with the no-outgoing-edges constraint and zero successors
(test 5 of `src/test_static_constraint.py`). -/
def wfNoOut0 : Workflow :=
  [ { task_id := "A", func_ref := "task_a", deps := [], dynamic_spawns := none,
      constraints := [.noOutgoingEdges] } ]

/-- C1: task `A` with the no-outgoing-edges constraint and a link `A → B`
(test 3 of `src/test_static_constraint.py`). -/
def wfNoOut1 : Workflow :=
  [ { task_id := "A", func_ref := "task_a", deps := [], dynamic_spawns := none,
      constraints := [.noOutgoingEdges] },
    { task_id := "B", func_ref := "task_b", deps := ["A"], dynamic_spawns := none,
      constraints := [] } ]

/-- C1: one task with the no-incoming-edges constraint and no deps
(test 6 of `src/test_static_constraint.py`). -/
def wfNoIn0 : Workflow :=
  [ { task_id := "A", func_ref := "task_a", deps := [], dynamic_spawns := none,
      constraints := [.noIncomingEdges] } ]

/-- C1: task `B` with the no-incoming-edges constraint and a link `A → B`
(test 4 of `src/test_static_constraint.py`). -/
def wfNoIn1 : Workflow :=
  [ { task_id := "A", func_ref := "task_a", deps := [], dynamic_spawns := none,
      constraints := [] },
    { task_id := "B", func_ref := "task_b", deps := ["A"], dynamic_spawns := none,
      constraints := [.noIncomingEdges] } ]

/-- C2: static task `P`, activator `E` with one branch `b ↦ B`, and the
dynamic-only branch task `B` with the static predecessor `P` outside the
dynamic-only set.  FIFO order runs `P` before `E`, so `P` completes before
the branch is activated. -/
def wfSnap : Workflow :=
  [ { task_id := "P", func_ref := "load", deps := [], dynamic_spawns := none,
      constraints := [] },
    { task_id := "E", func_ref := "activator", deps := [],
      dynamic_spawns := some [("b", "B")], constraints := [] },
    { task_id := "B", func_ref := "branch_body", deps := ["P"],
      dynamic_spawns := none, constraints := [] } ]

/-- C2: the activator's body registers the single branch label `b`
(free discipline); the other bodies are plain static wrappers. -/
def regSnap : String → Behavior := fun f =>
  if f = "activator" then .dynamic ["b"] false else .noop

/-- C5: activator `E` with `dynamic_spawns = {"process_high": A,
"process_low": B}` built by `branched_task` (exactly-one discipline). -/
def wfHighLow : Workflow :=
  [ { task_id := "E", func_ref := "evaluate", deps := [],
      dynamic_spawns := some [("process_high", "A"), ("process_low", "B")],
      constraints := [] },
    { task_id := "A", func_ref := "process_high", deps := [],
      dynamic_spawns := none, constraints := [] },
    { task_id := "B", func_ref := "process_low", deps := [],
      dynamic_spawns := none, constraints := [] } ]

/-- C5: `E`'s user function returns `process_low`, so the wrapper registers
exactly the label `["process_low"]` under the exactly-one discipline. -/
def regHighLow : String → Behavior := fun f =>
  if f = "evaluate" then .dynamic ["process_low"] true else .noop

/-- C4: the static cycle `A → B → C → A` (deps edges only). -/
def wfCycle : Workflow :=
  [ { task_id := "A", func_ref := "fA", deps := ["C"], dynamic_spawns := none,
      constraints := [] },
    { task_id := "B", func_ref := "fB", deps := ["A"], dynamic_spawns := none,
      constraints := [] },
    { task_id := "C", func_ref := "fC", deps := ["B"], dynamic_spawns := none,
      constraints := [] } ]

/-- C6: `branched_task(evaluate_multiple, [process_high, process_low])` from
`src/test_branching_error.py`. -/
def wfTwoLabels : Workflow :=
  [ { task_id := "E", func_ref := "evaluate_multiple", deps := [],
      dynamic_spawns := some [("process_high", "A"), ("process_low", "B")],
      constraints := [] },
    { task_id := "A", func_ref := "process_high", deps := [],
      dynamic_spawns := none, constraints := [] },
    { task_id := "B", func_ref := "process_low", deps := [],
      dynamic_spawns := none, constraints := [] } ]

/-- C6: `evaluate_multiple` returns both branch functions, so the exactly-one
wrapper sees two labels. -/
def regTwoLabels : String → Behavior := fun f =>
  if f = "evaluate_multiple" then .dynamic ["process_high", "process_low"] true
  else .noop

/-- C7: activator `E7` spawning `B7`, and `C7` depending only on `B7`, so the
transitive rule must pull `C7` into the dynamic-only closure. -/
def wfClosure : Workflow :=
  [ { task_id := "E7", func_ref := "eval7", deps := [],
      dynamic_spawns := some [("b", "B7")], constraints := [] },
    { task_id := "B7", func_ref := "branch7", deps := [],
      dynamic_spawns := none, constraints := [] },
    { task_id := "C7", func_ref := "after7", deps := ["B7"],
      dynamic_spawns := none, constraints := [] } ]

/-- C7: the `C7` task of `wfClosure`. -/
def taskC7 : TaskSpec :=
  { task_id := "C7", func_ref := "after7", deps := ["B7"],
    dynamic_spawns := none, constraints := [] }

/-- C3: a static zero-indegree task `X`, a dependent `Y`, and a zero-indegree
dynamic-only branch `Z`. -/
def wfReady : Workflow :=
  [ { task_id := "X", func_ref := "fX", deps := [], dynamic_spawns := none,
      constraints := [] },
    { task_id := "Y", func_ref := "fY", deps := ["X"], dynamic_spawns := none,
      constraints := [] },
    { task_id := "E", func_ref := "fE", deps := [],
      dynamic_spawns := some [("z", "Z")], constraints := [] },
    { task_id := "Z", func_ref := "fZ", deps := [], dynamic_spawns := none,
      constraints := [] } ]

/-- C8: a plain static task carrying the STATIC constraint (test 2 of
`src/test_static_constraint.py`; its own comment says it "should be OK"). -/
def wfStaticOk : Workflow :=
  [ { task_id := "L", func_ref := "load", deps := [], dynamic_spawns := none,
      constraints := [.staticC] } ]

/-- C8: an activator carrying the STATIC constraint (test 1 of
`src/test_static_constraint.py`). -/
def wfStaticBad : Workflow :=
  [ { task_id := "E", func_ref := "evaluate", deps := [],
      dynamic_spawns := some [("process_high", "A"), ("process_low", "B")],
      constraints := [.staticC] },
    { task_id := "A", func_ref := "process_high", deps := [],
      dynamic_spawns := none, constraints := [] },
    { task_id := "B", func_ref := "process_low", deps := [],
      dynamic_spawns := none, constraints := [] } ]

/-- C9: an activator spec with a single branch key `x ↦ X`. -/
def taskReg9 : TaskSpec :=
  { task_id := "T9", func_ref := "f9", deps := [],
    dynamic_spawns := some [("x", "X")], constraints := [] }

/-- C9: a non-activator spec. -/
def taskNoReg9 : TaskSpec :=
  { task_id := "S9", func_ref := "g9", deps := [], dynamic_spawns := none,
    constraints := [] }

/-- C10: a single plain task, used to instantiate the all-success theorem. -/
def wfSingle : Workflow :=
  [ { task_id := "T", func_ref := "fT", deps := [], dynamic_spawns := none,
      constraints := [] } ]

/-- The activator task of `wfTwoLabels`. -/
def taskE6 : TaskSpec :=
  { task_id := "E", func_ref := "evaluate_multiple", deps := [],
    dynamic_spawns := some [("process_high", "A"), ("process_low", "B")],
    constraints := [] }

section ClosureLemmas

theorem subset_stepT (s : Finset String) (t : TaskSpec) : s ⊆ stepT s t := by
  unfold stepT
  split
  · exact Finset.Subset.refl s
  split
  · exact Finset.Subset.refl s
  split
  · exact Finset.subset_insert _ s
  · exact Finset.Subset.refl s

theorem subset_foldl_stepT (l : List TaskSpec) :
    ∀ s : Finset String, s ⊆ l.foldl stepT s := by
  induction l with
  | nil => intro s; exact Finset.Subset.refl s
  | cons t l ih =>
      intro s
      exact (subset_stepT s t).trans (ih (stepT s t))

theorem stepT_subset_union (s : Finset String) (t : TaskSpec) :
    stepT s t ⊆ s ∪ {t.task_id} := by
  unfold stepT
  split
  · exact Finset.subset_union_left
  split
  · exact Finset.subset_union_left
  split
  · intro x hx
    rcases Finset.mem_insert.mp hx with h | h
    · exact Finset.mem_union_right _ (by simp [h])
    · exact Finset.mem_union_left _ h
  · exact Finset.subset_union_left

theorem foldl_stepT_subset_union (l : List TaskSpec) :
    ∀ s : Finset String, l.foldl stepT s ⊆ s ∪ (l.map (·.task_id)).toFinset := by
  induction l with
  | nil => intro s; simp
  | cons t l ih =>
      intro s
      intro x hx
      have hx2 := ih (stepT s t) hx
      rcases Finset.mem_union.mp hx2 with h | h
      · have := stepT_subset_union s t h
        rcases Finset.mem_union.mp this with h2 | h2
        · exact Finset.mem_union_left _ h2
        · simp only [Finset.mem_singleton] at h2
          subst h2
          simp
      · simp only [List.map_cons, List.toFinset_cons, Finset.mem_insert] at h ⊢
        simp [h]

theorem foldl_stepT_of_ids_mem (l : List TaskSpec) :
    ∀ s : Finset String, (∀ t ∈ l, t.task_id ∈ s) → l.foldl stepT s = s := by
  induction l with
  | nil => intro s _; rfl
  | cons t l ih =>
      intro s h
      have ht : stepT s t = s := by
        unfold stepT
        rw [if_pos (h t (by simp))]
      rw [List.foldl_cons, ht]
      exact ih s (fun u hu => h u (by simp [hu]))

theorem mem_foldl_stepT_of_closed (t : TaskSpec) (hne : t.deps ≠ []) :
    ∀ (l : List TaskSpec) (s : Finset String), t ∈ l → (∀ d ∈ t.deps, d ∈ s) →
      t.task_id ∈ l.foldl stepT s := by
  intro l
  induction l with
  | nil => intro s h; exact absurd h (List.not_mem_nil t)
  | cons u l ih =>
      intro s hmem hdep
      rcases List.mem_cons.mp hmem with h | h
      · subst h
        have hstep : t.task_id ∈ stepT s t := by
          unfold stepT
          by_cases h1 : t.task_id ∈ s
          · rw [if_pos h1]; exact h1
          · rw [if_neg h1, if_neg hne,
              if_pos (by simp only [List.all_eq_true, decide_eq_true_eq]; exact hdep)]
            exact Finset.mem_insert_self _ _
        exact subset_foldl_stepT l (stepT s t) hstep
      · exact ih (stepT s u) h (fun d hd => subset_stepT s u (hdep d hd))

theorem saturate_fixed (wf : Workflow) :
    ∀ (fuel : Nat) (s : Finset String),
      (idsOf wf).card ≤ fuel + ((idsOf wf) ∩ s).card →
      passOnce wf (saturate wf fuel s) = saturate wf fuel s := by
  intro fuel
  induction fuel with
  | zero =>
      intro s hcard
      have hsub : idsOf wf ∩ s ⊆ idsOf wf := Finset.inter_subset_left
      have heq : idsOf wf ∩ s = idsOf wf :=
        Finset.eq_of_subset_of_card_le hsub (by simpa using hcard)
      have hids : idsOf wf ⊆ s := by
        intro x hx
        have hx2 : x ∈ idsOf wf ∩ s := by rw [heq]; exact hx
        exact (Finset.mem_inter.mp hx2).2
      show passOnce wf s = s
      apply foldl_stepT_of_ids_mem
      intro t ht
      apply hids
      simp only [idsOf, List.mem_toFinset, List.mem_map]
      exact ⟨t, ht, rfl⟩
  | succ fuel ih =>
      intro s hcard
      by_cases hfix : passOnce wf s = s
      · simp [saturate, hfix]
      · have hsat : saturate wf (fuel + 1) s = saturate wf fuel (passOnce wf s) := by
          simp [saturate, hfix]
        rw [hsat]
        apply ih
        -- the changing pass added at least one fresh task id
        have hsub : s ⊆ passOnce wf s := subset_foldl_stepT wf s
        have hne : ∃ x, x ∈ passOnce wf s ∧ x ∉ s := by
          by_contra hno
          push_neg at hno
          exact hfix (Finset.Subset.antisymm (fun x hx => hno x hx) hsub)
        obtain ⟨x, hxin, hxout⟩ := hne
        have hxid : x ∈ idsOf wf := by
          have := foldl_stepT_subset_union wf s hxin
          rcases Finset.mem_union.mp this with h | h
          · exact absurd h hxout
          · exact h
        have hss : idsOf wf ∩ s ⊂ idsOf wf ∩ passOnce wf s := by
          constructor
          · exact Finset.inter_subset_inter (Finset.Subset.refl _) hsub
          · intro hback
            have : x ∈ idsOf wf ∩ s := hback (Finset.mem_inter.mpr ⟨hxid, hxin⟩)
            exact hxout (Finset.mem_inter.mp this).2
        have hlt := Finset.card_lt_card hss
        omega

theorem dynamicOnly_fixed (wf : Workflow) :
    passOnce wf (dynamicOnlyTasks wf) = dynamicOnlyTasks wf := by
  apply saturate_fixed
  have h1 : (idsOf wf).card ≤ (wf.map (·.task_id)).length := List.toFinset_card_le _
  have h2 : (wf.map (·.task_id)).length = wf.length := List.length_map _ _
  omega

theorem saturate_of_fixed (wf : Workflow) (s : Finset String)
    (h : passOnce wf s = s) : ∀ fuel, saturate wf fuel s = s := by
  intro fuel
  cases fuel with
  | zero => rfl
  | succ fuel => simp [saturate, h]

theorem dynamicOnly_closed (wf : Workflow) (t : TaskSpec) (ht : t ∈ wf)
    (hne : t.deps ≠ []) (hdeps : ∀ d ∈ t.deps, d ∈ dynamicOnlyTasks wf) :
    t.task_id ∈ dynamicOnlyTasks wf := by
  have := mem_foldl_stepT_of_closed t hne wf (dynamicOnlyTasks wf) ht hdeps
  rwa [show wf.foldl stepT (dynamicOnlyTasks wf) = passOnce wf (dynamicOnlyTasks wf) from rfl,
    dynamicOnly_fixed] at this

end ClosureLemmas

/-! ## Lemmas about `register_branches` -/

theorem regLoop_err (taskId : String) (m : List (String × String)) :
    ∀ (labels acc : List String), (∃ l ∈ labels, m.lookup l = none) →
      ∃ l ∈ labels, m.lookup l = none ∧
        (regLoop taskId m acc labels).2 = some (.unknownBranch taskId l) := by
  intro labels
  induction labels with
  | nil => intro acc h; obtain ⟨l, hl, _⟩ := h; exact absurd hl (List.not_mem_nil l)
  | cons label rest ih =>
      intro acc h
      by_cases hk : (m.lookup label).isSome
      · have hstep : regLoop taskId m acc (label :: rest) =
            regLoop taskId m (acc ++ [label]) rest := by
          simp only [regLoop]; rw [if_pos hk]
        obtain ⟨l, hl, hnone⟩ := h
        rcases List.mem_cons.mp hl with rfl | hl2
        · rw [hnone] at hk; exact absurd hk (by simp)
        · obtain ⟨l2, hl2m, hn2, hres⟩ := ih (acc ++ [label]) ⟨l, hl2, hnone⟩
          exact ⟨l2, List.mem_cons_of_mem _ hl2m, hn2, by rw [hstep]; exact hres⟩
      · have hnone : m.lookup label = none := Option.not_isSome_iff_eq_none.mp hk
        refine ⟨label, List.mem_cons_self _ _, hnone, ?_⟩
        simp only [regLoop]
        rw [if_neg hk]

theorem regLoop_acc (taskId : String) (m : List (String × String)) :
    ∀ (labels acc : List String) (l : String),
      l ∈ (regLoop taskId m acc labels).1 → l ∈ acc ∨ (m.lookup l).isSome := by
  intro labels
  induction labels with
  | nil => intro acc l h; exact Or.inl h
  | cons label rest ih =>
      intro acc l h
      by_cases hk : (m.lookup label).isSome
      · rw [show regLoop taskId m acc (label :: rest) =
            regLoop taskId m (acc ++ [label]) rest from by
              simp only [regLoop]; rw [if_pos hk]] at h
        rcases ih (acc ++ [label]) l h with hin | hin
        · rcases List.mem_append.mp hin with h2 | h2
          · exact Or.inl h2
          · simp only [List.mem_singleton] at h2
            subst h2
            exact Or.inr hk
        · exact Or.inr hin
      · rw [show regLoop taskId m acc (label :: rest) =
            (acc, some (.unknownBranch taskId label)) from by simp only [regLoop]; rw [if_neg hk]] at h
        exact Or.inl h

/-! ## Lemmas about the run loop's `done` map -/

theorem activateBranch_done (spawns : List (String × String)) (st : RunSt)
    (label : String) : (activateBranch spawns st label).done = st.done := by
  unfold activateBranch
  rcases spawns.lookup label with _ | task_id
  · rfl
  · by_cases hd : st.done.any (fun p => p.1 = task_id)
    · simp only [hd, if_true]
    · simp only [hd, if_false]
      rcases st.blocked task_id with _ | n
      · rfl
      · by_cases hn : n = 0 <;> simp [hn]

theorem registerForExecution_done (spawns : List (String × String)) :
    ∀ (registered : List String) (st : RunSt),
      (registerForExecution st spawns registered).done = st.done := by
  intro registered
  induction registered with
  | nil => intro st; rfl
  | cons l rest ih =>
      intro st
      show (registerForExecution (activateBranch spawns st l) spawns rest).done = st.done
      rw [ih (activateBranch spawns st l), activateBranch_done]

theorem decSuccessor_done (st : RunSt) (succ : String) :
    (decSuccessor st succ).done = st.done := by
  unfold decSuccessor
  rcases st.indegree succ with n | _
  · by_cases hn : n - 1 = 0 <;> simp [hn]
  · rfl

theorem foldl_decSuccessor_done :
    ∀ (l : List String) (st : RunSt), (l.foldl decSuccessor st).done = st.done := by
  intro l
  induction l with
  | nil => intro st; rfl
  | cons s rest ih =>
      intro st
      rw [List.foldl_cons, ih (decSuccessor st s), decSuccessor_done]

theorem dupdate_success (m : List (String × String)) (k : String)
    (h : ∀ p ∈ m, p.2 = "SUCCESS") :
    ∀ p ∈ dupdate m k "SUCCESS", p.2 = "SUCCESS" := by
  intro p hp
  unfold dupdate at hp
  by_cases hk : m.any (fun q => q.1 = k)
  · rw [if_pos hk] at hp
    obtain ⟨q, hq, hqp⟩ := List.mem_map.mp hp
    by_cases hqk : q.1 = k
    · rw [if_pos hqk] at hqp; rw [← hqp]
    · rw [if_neg hqk] at hqp; rw [← hqp]; exact h q hq
  · rw [if_neg hk] at hp
    rcases List.mem_append.mp hp with h2 | h2
    · exact h p h2
    · simp only [List.mem_singleton] at h2; rw [h2]


/-! ## Claim theorems -/

/-- C1 (code_bug evidence): the spec says a task carrying
`MustHaveNoOutgoingEdges` passes validation with zero successors and fails
with a `ConstraintViolation` once it has a successor, and symmetrically for
`MustHaveNoIncomingEdges` and `deps`.  The code instead raises
`AttributeError` (the `Constraint.STATIC` lookup) as soon as ANY constrained
task is validated, successors or not, and contains no check of successor or
dep counts at all: all four test scenarios of `src/test_static_constraint.py`
(tests 3–6) abort with `AttributeError`, including the two that its own test
script expects to succeed. -/
theorem edge_constraints_never_checked :
    (run wfNoOut0 (fun _ => .noop) 3).errOf = some .attrError ∧
    (run wfNoOut1 (fun _ => .noop) 3).errOf = some .attrError ∧
    (run wfNoIn0 (fun _ => .noop) 3).errOf = some .attrError ∧
    (run wfNoIn1 (fun _ => .noop) 3).errOf = some .attrError :=
  ⟨rfl, rfl, rfl, rfl⟩

/-- C2: in `wfSnap` the static predecessor `P` completes before the branch
`B` is activated; `P`'s completion skips the sentinel-blocked `B` (no
decrement), activation restores the run-start snapshot `1` (not a recount
against `done`, which already contains `P`), so `B`'s indegree stays at the
positive snapshot, `B` is never enqueued nor run, and the run still returns
normally with only `P` and `E` done. -/
theorem snapshot_indegree_strands_branch :
    (run wfSnap regSnap 5).errOf = none ∧
    (run wfSnap regSnap 5).state.done = [("P", "SUCCESS"), ("E", "SUCCESS")] ∧
    (run wfSnap regSnap 5).state.indegree "B" = .fin 1 ∧
    (run wfSnap regSnap 5).state.blocked "B" = some 1 ∧
    "B" ∉ (run wfSnap regSnap 5).state.done.map (·.1) ∧
    (run wfSnap regSnap 5).state.queue = [] :=
  ⟨rfl, rfl, rfl, rfl, by decide, rfl⟩

/-- C3: for every workflow, `initial_ready()` is exactly the set of task ids
of indegree 0 minus the dynamic-only closure (so in particular a
dynamic-only task is excluded even at indegree 0).  Proved for all
workflows, hence in particular for the acyclic ones the claim quantifies
over. -/
theorem initial_ready_exact (wf : Workflow) (tid : String) :
    tid ∈ initial_ready wf ↔
      tid ∈ wf.map (·.task_id) ∧ indegree0 wf tid = 0 ∧
        tid ∉ dynamicOnlyTasks wf := by
  constructor
  · intro h
    simp only [initial_ready, List.mem_map, List.mem_filter] at h
    obtain ⟨t, ⟨htw, hp⟩, rfl⟩ := h
    simp only [decide_eq_true_eq] at hp
    exact ⟨List.mem_map.mpr ⟨t, htw, rfl⟩, hp.1, hp.2⟩
  · rintro ⟨hmem, hz, hd⟩
    obtain ⟨t, htw, rfl⟩ := List.mem_map.mp hmem
    simp only [initial_ready, List.mem_map, List.mem_filter]
    exact ⟨t, ⟨htw, by simp only [decide_eq_true_eq]; exact ⟨hz, hd⟩⟩, rfl⟩

/-- C3 witness: in `wfReady`, `X` (indegree 0, not dynamic-only) is initially
ready by the theorem, and the dynamic-only `Z` is not, despite `Z` having
indegree 0. -/
theorem initial_ready_exact_witness :
    "X" ∈ initial_ready wfReady ∧ "Z" ∉ initial_ready wfReady :=
  ⟨(initial_ready_exact wfReady "X").mpr ⟨by decide, by decide, by decide⟩,
   fun h => by
    have h2 := (initial_ready_exact wfReady "Z").mp h
    exact absurd h2.2.2 (by decide)⟩

/-- C5: under the exactly-one discipline, `E` registering `["process_low"]`
makes `B` run to `Done{Success}`, `A` never executes, and `run()` returns
normally. -/
theorem exactly_one_selects_registered_branch :
    (run wfHighLow regHighLow 5).errOf = none ∧
    (run wfHighLow regHighLow 5).state.done =
      [("E", "SUCCESS"), ("B", "SUCCESS")] ∧
    "A" ∉ (run wfHighLow regHighLow 5).state.done.map (·.1) :=
  ⟨rfl, rfl, by decide⟩

/-- C7: the dynamic-only closure is a fixed point of its own saturation loop
(re-running the transitive phase on the computed set, with any fuel, changes
nothing — idempotence on the unchanged graph), and it is closed: any task
whose deps are non-empty and all dynamic-only is itself in the set. -/
theorem dynamic_only_idempotent_and_closed (wf : Workflow) :
    (∀ fuel, saturate wf fuel (dynamicOnlyTasks wf) = dynamicOnlyTasks wf) ∧
    (∀ t ∈ wf, t.deps ≠ [] →
      (∀ d ∈ t.deps, d ∈ dynamicOnlyTasks wf) →
      t.task_id ∈ dynamicOnlyTasks wf) :=
  ⟨saturate_of_fixed wf _ (dynamicOnly_fixed wf),
   fun t ht => dynamicOnly_closed wf t ht⟩

/-- C7 witness: in `wfClosure`, `C7` depends only on the spawned `B7`, and
the theorem's closedness part puts `C7` in the dynamic-only set. -/
theorem dynamic_only_idempotent_and_closed_witness :
    saturate wfClosure 2 (dynamicOnlyTasks wfClosure) = dynamicOnlyTasks wfClosure ∧
    "C7" ∈ dynamicOnlyTasks wfClosure :=
  ⟨(dynamic_only_idempotent_and_closed wfClosure).1 2,
   (dynamic_only_idempotent_and_closed wfClosure).2 taskC7 (by decide)
     (by decide) (by decide)⟩

/-- C8 (code_bug evidence): the spec says `MustBeStatic` fails exactly when
`dynamic_spawns` is non-empty and that a non-activator carrying it passes and
executes.  In the code the dispatch `constraint == Constraint.STATIC` raises
`AttributeError` before `_validate_static` can run, so even the plain static
task of test 2 of `src/test_static_constraint.py` (which the test expects to
succeed) aborts, with nothing executed; the activator case aborts with the
same `AttributeError` instead of the claimed `ConstraintViolation`. -/
theorem static_constraint_validation_crashes :
    (run wfStaticOk (fun _ => .noop) 3).errOf = some .attrError ∧
    (run wfStaticOk (fun _ => .noop) 3).state.done = [] ∧
    (run wfStaticBad (fun _ => .noop) 3).errOf = some .attrError :=
  ⟨rfl, rfl, rfl⟩

/-- C9: `register_branches` fails on a non-activator; if any requested label
is not a key of `dynamic_spawns` the call fails with the unknown-branch
error for such a label; and every label accumulated in the registered list
(beyond what was already there) is a key of `dynamic_spawns`. -/
theorem register_branches_spec (t : TaskSpec) :
    (t.dynamic_spawns = none →
      ∀ acc labels,
        (register_branches t acc labels).2 = some (.notDynamicTask t.task_id)) ∧
    (∀ m, t.dynamic_spawns = some m →
      (∀ acc labels, (∃ l ∈ labels, m.lookup l = none) →
        ∃ l ∈ labels, m.lookup l = none ∧
          (register_branches t acc labels).2 =
            some (.unknownBranch t.task_id l)) ∧
      (∀ acc labels l, l ∈ (register_branches t acc labels).1 →
        l ∈ acc ∨ (m.lookup l).isSome)) := by
  constructor
  · intro h acc labels
    unfold register_branches
    rw [h]
  · intro m h
    constructor
    · intro acc labels hbad
      have := regLoop_err t.task_id m labels acc hbad
      unfold register_branches
      rw [h]
      exact this
    · intro acc labels l hl
      unfold register_branches at hl
      rw [h] at hl
      exact regLoop_acc t.task_id m labels acc l hl

/-- C9 witness: on the activator `taskReg9`, requesting the unknown label
`"y"` fails with `UnknownBranch`, a successful request accumulates only
keys, and on the non-activator `taskNoReg9` the call fails outright. -/
theorem register_branches_spec_witness :
    (∃ l ∈ ["y"], (([("x", "X")] : List (String × String)).lookup l) = none ∧
      (register_branches taskReg9 [] ["y"]).2 =
        some (.unknownBranch "T9" l)) ∧
    ("x" ∈ (register_branches taskReg9 [] ["x"]).1 →
      "x" ∈ ([] : List String) ∨
        ((([("x", "X")] : List (String × String)).lookup "x")).isSome) ∧
    (register_branches taskNoReg9 [] ["x"]).2 =
      some (.notDynamicTask "S9") :=
  ⟨by
    have h := ((register_branches_spec taskReg9).2 [("x", "X")] rfl).1 []
      ["y"] ⟨"y", by decide, by decide⟩
    exact h,
   fun hmem => ((register_branches_spec taskReg9).2 [("x", "X")] rfl).2
     [] ["x"] "x" hmem,
   (register_branches_spec taskNoReg9).1 rfl [] ["x"]⟩

/-- The queue-empty arm of the run loop, as an equation. -/
theorem runLoop_queue_nil (wf : Workflow) (reg : String → Behavior)
    (fuel : Nat) (st : RunSt) (h : st.queue = []) :
    runLoop wf reg (fuel + 1) st =
      if pendingNonDynamic wf st = [] then .ok st
      else .err (.deadlock ((pendingNonDynamic wf st).map (·.func_ref))) st := by
  rcases st with ⟨ind, dn, bl, q⟩
  simp only at h
  subst h
  rfl

/-- `pendingNonDynamic` is empty exactly when every non-dynamic-only task id
appears in the `done` map. -/
theorem pendingNonDynamic_eq_nil (wf : Workflow) (st : RunSt) :
    pendingNonDynamic wf st = [] ↔
      ∀ t ∈ wf, t.task_id ∉ dynamicOnlyTasks wf →
        t.task_id ∈ st.done.map (·.1) := by
  unfold pendingNonDynamic
  rw [List.filter_eq_nil_iff]
  constructor
  · intro h t ht hdyn
    have h2 := h t ht
    simp only [decide_eq_true_eq, not_and] at h2
    by_cases hany : st.done.any (fun p => p.1 = t.task_id) = true
    · simp only [List.any_eq_true, decide_eq_true_eq] at hany
      obtain ⟨p, hp, hpe⟩ := hany
      exact List.mem_map.mpr ⟨p, hp, hpe⟩
    · exact absurd hdyn (h2 hany)
  · intro h t ht
    simp only [decide_eq_true_eq]
    rintro ⟨hnotany, hdyn⟩
    obtain ⟨p, hp, hpe⟩ := List.mem_map.mp (h t ht hdyn)
    exact hnotany (List.any_eq_true.mpr ⟨p, hp, by simp [hpe]⟩)

/-- C4: whenever the ready queue is empty, the run loop returns normally iff
every task id not in the dynamic-only set appears in `done`; otherwise it
raises the deadlock error naming (by `func_ref`) exactly the non-done,
non-dynamic-only tasks; and on the concrete static cycle `A → B → C → A`
the run aborts naming all three. -/
theorem queue_empty_termination (wf : Workflow) (reg : String → Behavior)
    (fuel : Nat) (st : RunSt) (h : st.queue = []) :
    (runLoop wf reg (fuel + 1) st = .ok st ↔
      ∀ t ∈ wf, t.task_id ∉ dynamicOnlyTasks wf →
        t.task_id ∈ st.done.map (·.1)) ∧
    (pendingNonDynamic wf st ≠ [] →
      runLoop wf reg (fuel + 1) st =
        .err (.deadlock ((pendingNonDynamic wf st).map (·.func_ref))) st) ∧
    (run wfCycle (fun _ => .noop) 1).errOf =
      some (.deadlock ["fA", "fB", "fC"]) := by
  refine ⟨?_, ?_, rfl⟩
  · rw [runLoop_queue_nil wf reg fuel st h]
    by_cases hp : pendingNonDynamic wf st = []
    · rw [if_pos hp]
      constructor
      · intro _
        exact (pendingNonDynamic_eq_nil wf st).mp hp
      · intro _
        rfl
    · rw [if_neg hp]
      constructor
      · intro he
        exact RunResult.noConfusion he
      · intro hall
        exact absurd ((pendingNonDynamic_eq_nil wf st).mpr hall) hp
  · intro hne
    rw [runLoop_queue_nil wf reg fuel st h, if_neg hne]

/-- C4 witness: the empty workflow starts with an empty queue and its run
terminates normally, via the theorem's iff. -/
theorem queue_empty_termination_witness :
    (initState ([] : Workflow)).queue = [] ∧
    runLoop ([] : Workflow) (fun _ => Behavior.noop) 1 (initState []) =
      .ok (initState []) :=
  ⟨rfl,
   (queue_empty_termination [] (fun _ => .noop) 0 (initState []) rfl).1.mpr
     (fun t ht => absurd ht (List.not_mem_nil t))⟩

/-- C6: popping a task whose registry wrapper enforces the exactly-one
discipline and whose user function yields `labels.length ≠ 1` labels makes
the run abort with the wrapped `BranchCardinality` error, with the `done`
entry set to FAILED and — decisively — `indegree` and `blocked_branches`
untouched and nothing enqueued: no branch is unblocked. -/
theorem branch_cardinality_aborts_before_unblock (wf : Workflow)
    (reg : String → Behavior) (fuel : Nat) (st : RunSt) (tid : String)
    (rest : List String) (t : TaskSpec) (labels : List String)
    (hq : st.queue = tid :: rest)
    (hf : wf.find? (fun u => u.task_id = tid) = some t)
    (hc : t.constraints = [])
    (hb : reg t.func_ref = .dynamic labels true)
    (hn : labels.length ≠ 1) :
    (runLoop wf reg (fuel + 1) st).errOf =
      some (.taskFailed t.func_ref
        (.branchCardinality t.func_ref labels.length)) ∧
    (runLoop wf reg (fuel + 1) st).state.indegree = st.indegree ∧
    (runLoop wf reg (fuel + 1) st).state.blocked = st.blocked ∧
    (runLoop wf reg (fuel + 1) st).state.queue = rest ∧
    (runLoop wf reg (fuel + 1) st).state.done = dupdate st.done tid "FAILED" := by
  have hval : validate_before_execution t = none := by
    unfold validate_before_execution
    rw [hc]
  have hexec : executeBody reg t =
      .error (.branchCardinality t.func_ref labels.length) := by
    simp only [executeBody, hb]
    rw [if_pos ⟨trivial, hn⟩]
  have hred : runLoop wf reg (fuel + 1) st =
      .err (.taskFailed t.func_ref (.branchCardinality t.func_ref labels.length))
        { st with queue := rest, done := dupdate st.done tid "FAILED" } := by
    rcases st with ⟨ind, dn, bl, q⟩
    simp only at hq
    subst hq
    simp only [runLoop, hf, hval, hexec]
  rw [hred]
  exact ⟨rfl, rfl, rfl, rfl, rfl⟩

/-- C6 witness: the `src/test_branching_error.py` scenario — two labels under
exactly-one — aborts with `BranchCardinality`, both branches still sentinel
blocked and the queue empty. -/
theorem branch_cardinality_aborts_before_unblock_witness :
    (runLoop wfTwoLabels regTwoLabels 1 (initState wfTwoLabels)).errOf =
      some (.taskFailed "evaluate_multiple"
        (.branchCardinality "evaluate_multiple" 2)) ∧
    (runLoop wfTwoLabels regTwoLabels 1 (initState wfTwoLabels)).state.indegree =
      (initState wfTwoLabels).indegree ∧
    (runLoop wfTwoLabels regTwoLabels 1 (initState wfTwoLabels)).state.blocked =
      (initState wfTwoLabels).blocked ∧
    (runLoop wfTwoLabels regTwoLabels 1 (initState wfTwoLabels)).state.queue = [] ∧
    (runLoop wfTwoLabels regTwoLabels 1 (initState wfTwoLabels)).state.done =
      dupdate [] "E" "FAILED" :=
  branch_cardinality_aborts_before_unblock wfTwoLabels regTwoLabels 0
    (initState wfTwoLabels) "E" [] taskE6 ["process_high", "process_low"]
    rfl rfl rfl rfl (by decide)

/-- Normal returns of the run loop only ever add SUCCESS entries to `done`. -/
theorem runLoop_ok_all_success (wf : Workflow) (reg : String → Behavior) :
    ∀ (fuel : Nat) (st st' : RunSt), (∀ p ∈ st.done, p.2 = "SUCCESS") →
      runLoop wf reg fuel st = .ok st' → ∀ p ∈ st'.done, p.2 = "SUCCESS" := by
  intro fuel
  induction fuel with
  | zero =>
      intro st st' _ hrun
      exact RunResult.noConfusion hrun
  | succ fuel ih =>
      intro st st' hinv hrun
      rcases st with ⟨ind, dn, bl, q⟩
      cases q with
      | nil =>
          rw [runLoop_queue_nil wf reg fuel _ rfl] at hrun
          by_cases hp : pendingNonDynamic wf ⟨ind, dn, bl, []⟩ = []
          · rw [if_pos hp] at hrun
            cases hrun
            exact hinv
          · rw [if_neg hp] at hrun
            exact RunResult.noConfusion hrun
      | cons tid rest =>
          cases hfind : wf.find? (fun u => u.task_id = tid) with
          | none =>
              rw [show runLoop wf reg (fuel + 1) ⟨ind, dn, bl, tid :: rest⟩ =
                  .err .keyError ⟨ind, dn, bl, rest⟩ from by
                simp only [runLoop, hfind]] at hrun
              exact RunResult.noConfusion hrun
          | some t =>
              cases hval : validate_before_execution t with
              | some e =>
                  rw [show runLoop wf reg (fuel + 1) ⟨ind, dn, bl, tid :: rest⟩ =
                      .err e ⟨ind, dn, bl, rest⟩ from by
                    simp only [runLoop, hfind, hval]] at hrun
                  exact RunResult.noConfusion hrun
              | none =>
                  cases hexec : executeBody reg t with
                  | error e =>
                      rw [show runLoop wf reg (fuel + 1) ⟨ind, dn, bl, tid :: rest⟩ =
                          .err (.taskFailed t.func_ref e)
                            ⟨ind, dupdate dn tid "FAILED", bl, rest⟩ from by
                        simp only [runLoop, hfind, hval, hexec]] at hrun
                      exact RunResult.noConfusion hrun
                  | ok registered =>
                      cases hds : t.dynamic_spawns with
                      | none =>
                          rw [show runLoop wf reg (fuel + 1) ⟨ind, dn, bl, tid :: rest⟩ =
                              runLoop wf reg fuel (applySuccessors wf
                                ⟨ind, dupdate dn tid "SUCCESS", bl, rest⟩ tid) from by
                            simp only [runLoop, hfind, hval, hexec, hds]] at hrun
                          apply ih _ st' _ hrun
                          intro p hp
                          rw [applySuccessors, foldl_decSuccessor_done] at hp
                          exact dupdate_success dn tid hinv p hp
                      | some spawns =>
                          rw [show runLoop wf reg (fuel + 1) ⟨ind, dn, bl, tid :: rest⟩ =
                              runLoop wf reg fuel (applySuccessors wf
                                (registerForExecution
                                  ⟨ind, dupdate dn tid "SUCCESS", bl, rest⟩
                                  spawns registered) tid) from by
                            simp only [runLoop, hfind, hval, hexec, hds]] at hrun
                          apply ih _ st' _ hrun
                          intro p hp
                          rw [applySuccessors, foldl_decSuccessor_done,
                            registerForExecution_done] at hp
                          exact dupdate_success dn tid hinv p hp

/-- C10: whenever `Orchestrator.run` returns normally, every status in the
returned map is SUCCESS — FAILED is written only on the path that
immediately re-raises, so a map containing FAILED is never returned. -/
theorem run_ok_all_success (wf : Workflow) (reg : String → Behavior)
    (fuel : Nat) (st' : RunSt) (h : run wf reg fuel = .ok st') :
    ∀ p ∈ st'.done, p.2 = "SUCCESS" :=
  runLoop_ok_all_success wf reg fuel (initState wf) st'
    (fun p hp => absurd hp (List.not_mem_nil p)) h

/-- C10 witness: the single-task run completes with `("T", "SUCCESS")` in its
`done` map, and the theorem certifies the SUCCESS value. -/
theorem run_ok_all_success_witness :
    ("T", "SUCCESS") ∈ (run wfSingle (fun _ => .noop) 2).state.done ∧
    (("T", "SUCCESS") : String × String).2 = "SUCCESS" :=
  ⟨by decide,
   run_ok_all_success wfSingle (fun _ => .noop) 2
     ((run wfSingle (fun _ => .noop) 2).state) rfl ("T", "SUCCESS") (by decide)⟩

end WfEngine
